import Mathlib

/-!
Shallow embedding of the Super Simple Stocks application (src/app.py).

Numeric values (prices, quantities, dividends, times in seconds) are
modelled as exact rationals; the all-share index, which takes an n-th
root, lives in the reals.  Python's soft failures (returning `False` /
raising an arithmetic error) are modelled with `Option`: `none` stands
for "no numeric result" (a refused construction or a runtime fault).
-/

namespace SimpleStocks

/-- The module-level constant VALID_INDICATORS = ['Buy', 'Sell']. -/
def VALID_INDICATORS : List String := ["Buy", "Sell"]

/-- The module-level constant HISTORICAL_TRADES_TIME = 900 (seconds). -/
def HISTORICAL_TRADES_TIME : ℚ := 900

/-- The Stock class: symbol, type ("Common" or "Preferred"), last dividend,
par value, and the fixed dividend, which the constructor stores only when
the type is "Preferred" (absence is modelled by `none`). -/
structure Stock where
  stock_symbol : String
  stock_type : String
  last_dividend : ℚ
  par_value : ℚ
  fixed_dividend : Option ℚ
deriving DecidableEq

/-- The Trade class: the stock traded, quantity, indicator, price and the
trade time in seconds.  The derived display string `timestamp` (a calendar
rendering of `trade_time`) carries no extra information and is not
modelled. -/
structure Trade where
  stock : Stock
  quantity_stocks : ℚ
  indicator : String
  price : ℚ
  trade_time : ℚ
deriving DecidableEq

/-- Stock.dividend_yield.  The source first checks `not price or price<0`
(Python: `not price` is true for an absent price and for price 0) and
returns 0; then dispatches on the stock type.  A "Preferred" stock whose
fixed dividend is absent faults (None arithmetic), and a stock of any
other type returns Python None; both are `none` here. -/
def Stock.dividend_yield (s : Stock) (price : Option ℚ) : Option ℚ :=
  match price with
  | none => some 0
  | some p =>
    if p = 0 ∨ p < 0 then some 0
    else if s.stock_type = "Common" then some (s.last_dividend / p)
    else if s.stock_type = "Preferred" then
      s.fixed_dividend.map (fun d => d * s.par_value / p)
    else none

/-- Stock.calc_pe_ratio: 0 for an invalid price, 0 when the last dividend
is 0 (`not self.last_dividend`), otherwise price / last_dividend. -/
def Stock.calc_pe_ratio (s : Stock) (price : Option ℚ) : ℚ :=
  match price with
  | none => 0
  | some p =>
    if p = 0 ∨ p < 0 then 0
    else if s.last_dividend = 0 then 0
    else p / s.last_dividend

/-- Stock.generate_trade with an explicit trade time.  The source
validates price, then indicator, then quantity, returning False (here
`none`) on the first failure, and otherwise constructs the Trade. -/
def Stock.generate_trade (s : Stock) (quantity_stocks : Option ℚ)
    (indicator : Option String) (price : Option ℚ) (trade_time : ℚ) :
    Option Trade :=
  match price with
  | none => none
  | some p =>
    if p = 0 ∨ p < 0 then none
    else
      match indicator with
      | none => none
      | some ind =>
        if ind = "" ∨ ind ∉ VALID_INDICATORS then none
        else
          match quantity_stocks with
          | none => none
          | some q =>
            if q = 0 ∨ q < 0 then none
            else some { stock := s, quantity_stocks := q, indicator := ind,
                        price := p, trade_time := trade_time }

/-- Stock.generate_trade as called with the trade_time argument omitted.
In the source the parameter is declared `trade_time=time()`: Python
evaluates the default expression once, when the `def` statement runs at
module import.  Every call that omits trade_time therefore reuses that
single captured value, modelled here as `import_time`; the wall clock at
the moment of the call does not enter the computation at all. -/
def Stock.generate_trade_omitted (s : Stock) (import_time : ℚ)
    (quantity_stocks : Option ℚ) (indicator : Option String)
    (price : Option ℚ) : Option Trade :=
  s.generate_trade quantity_stocks indicator price import_time

/-- The StockMarket class: an ordered ledger of trades plus the set of
stocks seen in recorded trades.  Python compares Stock objects by
identity; here structural equality plays that role (all fixture stocks
are pairwise distinct in both senses). -/
structure StockMarket where
  trades : List Trade
  stocks : Finset Stock
deriving DecidableEq

/-- StockMarket.__init__: empty ledger, empty stock set. -/
def StockMarket.empty : StockMarket := { trades := [], stocks := ∅ }

/-- StockMarket.record_trades: for each trade in order, append it to the
ledger and, if its stock is not already tracked, add the stock. -/
def StockMarket.record_trades (m : StockMarket) (trades : List Trade) :
    StockMarket :=
  trades.foldl
    (fun acc trade =>
      { trades := acc.trades ++ [trade],
        stocks :=
          if trade.stock ∈ acc.stocks then acc.stocks
          else insert trade.stock acc.stocks })
    m

/-- The `recent_trades` list comprehension inside
volume_weighted_stock_price: recorded trades of this stock whose age at
the evaluation instant `now` is at most HISTORICAL_TRADES_TIME. -/
def StockMarket.recent_trades (m : StockMarket) (now : ℚ) (stock : Stock) :
    List Trade :=
  m.trades.filter
    (fun trade =>
      decide (now - trade.trade_time ≤ HISTORICAL_TRADES_TIME ∧
              trade.stock = stock))

/-- StockMarket.volume_weighted_stock_price, with the wall clock `now`
made an explicit parameter.  Returns 0 for an untracked stock; otherwise
sums price*quantity and quantity over the recent trades and divides.  A
zero denominator is Python's ZeroDivisionError, modelled as `none`. -/
def StockMarket.volume_weighted_stock_price (m : StockMarket) (now : ℚ)
    (stock : Stock) : Option ℚ :=
  if stock ∉ m.stocks then some 0
  else
    let numerator :=
      ((m.recent_trades now stock).map
        (fun trade => trade.price * trade.quantity_stocks)).sum
    let denominator :=
      ((m.recent_trades now stock).map Trade.quantity_stocks).sum
    if denominator = 0 then none else some (numerator / denominator)

/-- StockMarket.all_share_index, with the wall clock `now` explicit.  The
source computes `reduce(mul, (vwsp(s) for s in self.stocks))` (reduce is
the Python 2 builtin) and raises on an empty stock set; any vwsp call that
itself faults propagates the fault.  Otherwise it returns
`product ** (1 / float(len(self.stocks)))`.  Python set iteration order is
arbitrary and multiplication is commutative, so the product is a
`Finset.prod`; the real power models the float power (they agree on the
nonnegative products that validated trades produce). -/
noncomputable def StockMarket.all_share_index (m : StockMarket) (now : ℚ) :
    Option ℝ :=
  if m.stocks = ∅ then none
  else if ∀ s ∈ m.stocks, (m.volume_weighted_stock_price now s).isSome then
    some
      ((∏ s in m.stocks,
          (((m.volume_weighted_stock_price now s).getD 0 : ℚ) : ℝ)) ^
        ((1 : ℝ) / (m.stocks.card : ℝ)))
  else none

/-- Modelled from the spec's words, for comparison with the source's
all_share_index: the geometric mean of a quantity `f` over a finite set of
stocks, `(product of f) ^ (1 / count)`. -/
noncomputable def specGeometricMean (ss : Finset Stock) (f : Stock → ℝ) :
    ℝ :=
  (∏ s in ss, f s) ^ ((1 : ℝ) / (ss.card : ℝ))

/-- The set of stocks appearing in a list of trades. -/
def stocksOf (trades : List Trade) : Finset Stock :=
  (trades.map Trade.stock).toFinset

/-- volume_weighted_stock_price translated with explicit state passing:
every statement of the method only reads `self`, so each branch returns
the incoming state unchanged alongside the value. -/
def StockMarket.volume_weighted_stock_price_run (m : StockMarket)
    (now : ℚ) (stock : Stock) : StockMarket × Option ℚ :=
  if stock ∉ m.stocks then (m, some 0)
  else
    let numerator :=
      ((m.recent_trades now stock).map
        (fun trade => trade.price * trade.quantity_stocks)).sum
    let denominator :=
      ((m.recent_trades now stock).map Trade.quantity_stocks).sum
    if denominator = 0 then (m, none)
    else (m, some (numerator / denominator))

/-- all_share_index translated with explicit state passing: the property
only reads `self.stocks` and calls the read-only vwsp query. -/
noncomputable def StockMarket.all_share_index_run (m : StockMarket)
    (now : ℚ) : StockMarket × Option ℝ :=
  if m.stocks = ∅ then (m, none)
  else if ∀ s ∈ m.stocks, (m.volume_weighted_stock_price now s).isSome then
    (m, some
      ((∏ s in m.stocks,
          (((m.volume_weighted_stock_price now s).getD 0 : ℚ) : ℝ)) ^
        ((1 : ℝ) / (m.stocks.card : ℝ))))
  else (m, none)

/-- The markets reachable in a run of the program: a StockMarket is
created empty and mutated only by record_trades calls. -/
inductive Reachable : StockMarket → Prop where
  | base : Reachable StockMarket.empty
  | step : ∀ (m : StockMarket) (ts : List Trade),
      Reachable m → Reachable (m.record_trades ts)

/- Concrete fixtures mirroring tests/test_app.py, with the evaluation
instant fixed at 1000 seconds (resp. 1010 where the 900-second boundary is
exercised). -/

def tea : Stock :=
  { stock_symbol := "TEA", stock_type := "Common", last_dividend := 0,
    par_value := 100, fixed_dividend := none }

def pop : Stock :=
  { stock_symbol := "POP", stock_type := "Common", last_dividend := 8,
    par_value := 100, fixed_dividend := none }

def ale : Stock :=
  { stock_symbol := "ALE", stock_type := "Common", last_dividend := 23,
    par_value := 60, fixed_dividend := none }

def gin : Stock :=
  { stock_symbol := "GIN", stock_type := "Preferred", last_dividend := 8,
    par_value := 100, fixed_dividend := some (1 / 50) }

def tea_trade1 : Trade :=
  { stock := tea, quantity_stocks := 50, indicator := "Buy", price := 500,
    trade_time := 110 }

def tea_trade2 : Trade :=
  { stock := tea, quantity_stocks := 40, indicator := "Sell", price := 30,
    trade_time := 580 }

def tea_trade3 : Trade :=
  { stock := tea, quantity_stocks := 10, indicator := "Buy", price := 100,
    trade_time := 790 }

def gin_trade1 : Trade :=
  { stock := gin, quantity_stocks := 25, indicator := "Sell", price := 400,
    trade_time := 875 }

def gin_trade2 : Trade :=
  { stock := gin, quantity_stocks := 70, indicator := "Buy", price := 300,
    trade_time := 910 }

def gin_trade3 : Trade :=
  { stock := gin, quantity_stocks := 260, indicator := "Sell", price := 30,
    trade_time := 1000 }

def first_trades : List Trade :=
  [tea_trade1, tea_trade2, tea_trade3, gin_trade1, gin_trade2, gin_trade3]

def market1 : StockMarket := StockMarket.empty.record_trades first_trades

def ale_trade : Trade :=
  { stock := ale, quantity_stocks := 25, indicator := "Buy", price := 500,
    trade_time := 1000 }

def marketW : StockMarket := StockMarket.empty.record_trades [ale_trade]

/-! Theorems. -/

theorem nonpos_cases {p : ℚ} (h : p ≤ 0) : p = 0 ∨ p < 0 := by
  rcases lt_or_eq_of_le h with h1 | h1
  · exact Or.inr h1
  · exact Or.inl h1

theorem pos_not_cases {p : ℚ} (h : 0 < p) : ¬(p = 0 ∨ p < 0) := by
  push_neg
  exact ⟨ne_of_gt h, h.le⟩

/-- C3: dividend_yield is 0 for an absent or non-positive price (with no
fault), last_dividend / p for a Common stock at price p > 0, and
fixed_dividend * par_value / p for a Preferred stock at price p > 0. -/
theorem dividend_yield_spec (s : Stock) (p fd : ℚ) :
    (s.dividend_yield none = some 0) ∧
    (p ≤ 0 → s.dividend_yield (some p) = some 0) ∧
    (0 < p → s.stock_type = "Common" →
      s.dividend_yield (some p) = some (s.last_dividend / p)) ∧
    (0 < p → s.stock_type = "Preferred" → s.fixed_dividend = some fd →
      s.dividend_yield (some p) = some (fd * s.par_value / p)) := by
  refine ⟨rfl, ?_, ?_, ?_⟩
  · intro h
    simp [Stock.dividend_yield, nonpos_cases h]
  · intro h ht
    simp [Stock.dividend_yield, pos_not_cases h, ht]
  · intro h ht hfd
    have hc : s.stock_type = "Common" → False := by
      intro hc; rw [ht] at hc; exact absurd hc (by decide)
    simp [Stock.dividend_yield, pos_not_cases h, ht, hfd, hc]

/-- Witness for dividend_yield_spec: the fixture values of the tests,
GIN (Preferred, fixed dividend 0.02, par 100) at price 500 yields 0.004,
and TEA at price -3 yields 0. -/
theorem dividend_yield_spec_witness :
    gin.dividend_yield (some 500) = some (1 / 250) ∧
    tea.dividend_yield (some (-3)) = some 0 := by
  constructor
  · have h := (dividend_yield_spec gin 500 (1 / 50)).2.2.2
      (by norm_num) rfl rfl
    rw [h]
    norm_num [gin]
  · exact (dividend_yield_spec tea (-3) 0).2.1 (by norm_num)

/-- C8: calc_pe_ratio is 0 for an absent or non-positive price, 0 when
the last dividend is 0, and price / last_dividend otherwise. -/
theorem calc_pe_ratio_spec (s : Stock) (p : ℚ) :
    (s.calc_pe_ratio none = 0) ∧
    (p ≤ 0 → s.calc_pe_ratio (some p) = 0) ∧
    (0 < p → s.last_dividend = 0 → s.calc_pe_ratio (some p) = 0) ∧
    (0 < p → s.last_dividend ≠ 0 →
      s.calc_pe_ratio (some p) = p / s.last_dividend) := by
  refine ⟨rfl, ?_, ?_, ?_⟩
  · intro h
    simp [Stock.calc_pe_ratio, nonpos_cases h]
  · intro h hd
    simp [Stock.calc_pe_ratio, pos_not_cases h, hd]
  · intro h hd
    simp [Stock.calc_pe_ratio, pos_not_cases h, hd]

/-- Witness for calc_pe_ratio_spec: POP (last dividend 8) at price 500
has P/E 62.5, and TEA (last dividend 0) has P/E 0. -/
theorem calc_pe_ratio_spec_witness :
    pop.calc_pe_ratio (some 500) = 125 / 2 ∧
    tea.calc_pe_ratio (some 500) = 0 := by
  constructor
  · have h := (calc_pe_ratio_spec pop 500).2.2.2 (by norm_num)
      (by norm_num [pop])
    rw [h]
    norm_num [pop]
  · exact (calc_pe_ratio_spec tea 500).2.2.1 (by norm_num) rfl

theorem generate_trade_eq_some (s : Stock) (p n : ℚ) (i : String) (t : ℚ)
    (hp : 0 < p) (hn : 0 < n) (hi : i = "Buy" ∨ i = "Sell") :
    s.generate_trade (some n) (some i) (some p) t =
      some { stock := s, quantity_stocks := n, indicator := i,
             price := p, trade_time := t } := by
  have h3 : ¬(i = "" ∨ i ∉ VALID_INDICATORS) := by
    rcases hi with h | h <;> subst h <;> decide
  simp [Stock.generate_trade, pos_not_cases hp, pos_not_cases hn, h3]

theorem generate_trade_some_iff (s : Stock) (q : Option ℚ)
    (ind : Option String) (price : Option ℚ) (t : ℚ) :
    (∃ tr : Trade, s.generate_trade q ind price t = some tr) ↔
      ((∃ p, price = some p ∧ 0 < p) ∧ (∃ n, q = some n ∧ 0 < n) ∧
        (ind = some "Buy" ∨ ind = some "Sell")) := by
  constructor
  · rintro ⟨tr, htr⟩
    rcases price with _ | p
    · simp [Stock.generate_trade] at htr
    by_cases h1 : p = 0 ∨ p < 0
    · simp [Stock.generate_trade, h1] at htr
    rcases ind with _ | i
    · simp [Stock.generate_trade, h1] at htr
    by_cases h2 : i = "" ∨ i ∉ VALID_INDICATORS
    · simp [Stock.generate_trade, h1, h2] at htr
    rcases q with _ | n
    · simp [Stock.generate_trade, h1, h2] at htr
    by_cases h3 : n = 0 ∨ n < 0
    · simp [Stock.generate_trade, h1, h2, h3] at htr
    push_neg at h1 h3
    refine ⟨⟨p, rfl, ?_⟩, ⟨n, rfl, ?_⟩, ?_⟩
    · exact lt_of_le_of_ne h1.2 (Ne.symm h1.1)
    · exact lt_of_le_of_ne h3.2 (Ne.symm h3.1)
    · push_neg at h2
      have hmem : i ∈ VALID_INDICATORS := h2.2
      simp only [VALID_INDICATORS, List.mem_cons, List.not_mem_nil,
        or_false] at hmem
      rcases hmem with h | h
      · exact Or.inl (by rw [h])
      · exact Or.inr (by rw [h])
  · rintro ⟨⟨p, hp, hp0⟩, ⟨n, hq, hn0⟩, hi⟩
    subst hp
    subst hq
    rcases hi with h | h <;> subst h
    · exact ⟨_, generate_trade_eq_some s p n "Buy" t hp0 hn0 (Or.inl rfl)⟩
    · exact ⟨_, generate_trade_eq_some s p n "Sell" t hp0 hn0 (Or.inr rfl)⟩

/-- C5: generate_trade produces a Trade exactly when the price is present
and positive, the quantity is present and positive, and the indicator is
Buy or Sell; on success the Trade holds exactly the given parameters, and
otherwise the result is the failure signal (no Trade). -/
theorem generate_trade_spec (s : Stock) (q : Option ℚ) (ind : Option String)
    (price : Option ℚ) (t : ℚ) :
    ((∃ tr : Trade, s.generate_trade q ind price t = some tr) ↔
      ((∃ p, price = some p ∧ 0 < p) ∧ (∃ n, q = some n ∧ 0 < n) ∧
        (ind = some "Buy" ∨ ind = some "Sell"))) ∧
    (∀ p n i, price = some p → 0 < p → q = some n → 0 < n → ind = some i →
      (i = "Buy" ∨ i = "Sell") →
      s.generate_trade q ind price t =
        some { stock := s, quantity_stocks := n, indicator := i,
               price := p, trade_time := t }) := by
  refine ⟨generate_trade_some_iff s q ind price t, ?_⟩
  intro p n i hp hp0 hq hn0 hi hii
  subst hp
  subst hq
  subst hi
  exact generate_trade_eq_some s p n i t hp0 hn0 hii

/-- Witness for generate_trade_spec: a valid TEA buy produces the
expected Trade, and an invalid indicator produces no Trade. -/
theorem generate_trade_spec_witness :
    tea.generate_trade (some 30) (some "Buy") (some 500) 110 =
      some { stock := tea, quantity_stocks := 30, indicator := "Buy",
             price := 500, trade_time := 110 } ∧
    ¬∃ tr : Trade,
        tea.generate_trade (some 30) (some "Hold") (some 500) 110 =
          some tr := by
  constructor
  · exact (generate_trade_spec tea (some 30) (some "Buy") (some 500)
      110).2 500 30 "Buy" rfl (by norm_num) rfl (by norm_num) rfl
      (Or.inl rfl)
  · intro hex
    have h := (generate_trade_spec tea (some 30) (some "Hold") (some 500)
      110).1.mp hex
    rcases h.2.2 with h | h <;> exact absurd h (by decide)

/-- C7 (code behaviour at the failing input): the source declares the
trade_time parameter as `trade_time=time()`, so the default is the clock
value captured once at module import, not the clock at the call.  In the
scenario below the module is imported at second 100 and generate_trade is
called with trade_time omitted at second 160: the resulting Trade is
stamped 100, the import instant, which differs from the call instant
160. -/
theorem generate_trade_omitted_uses_import_time :
    (tea.generate_trade_omitted 100 (some 30) (some "Sell")
        (some 1000)).map (fun tr => tr.trade_time) = some 100 ∧
    (100 : ℚ) ≠ 160 := by
  constructor
  · have h := generate_trade_eq_some tea 1000 30 "Sell" 100 (by norm_num)
      (by norm_num) (Or.inr rfl)
    simp [Stock.generate_trade_omitted, h]
  · norm_num

theorem record_trades_cons (m : StockMarket) (t : Trade) (ts : List Trade) :
    m.record_trades (t :: ts) =
      StockMarket.record_trades
        { trades := m.trades ++ [t],
          stocks := if t.stock ∈ m.stocks then m.stocks
                    else insert t.stock m.stocks } ts := rfl

theorem insert_if_mem (s : Finset Stock) (a : Stock) :
    (if a ∈ s then s else insert a s) = insert a s := by
  split_ifs with h
  · exact (Finset.insert_eq_self.mpr h).symm
  · rfl

theorem stocksOf_cons (t : Trade) (ts : List Trade) :
    stocksOf (t :: ts) = insert t.stock (stocksOf ts) := by
  simp [stocksOf]

theorem stocksOf_append (xs ys : List Trade) :
    stocksOf (xs ++ ys) = stocksOf xs ∪ stocksOf ys := by
  simp [stocksOf]

theorem record_trades_trades (m : StockMarket) (ts : List Trade) :
    (m.record_trades ts).trades = m.trades ++ ts := by
  induction ts generalizing m with
  | nil => simp [StockMarket.record_trades]
  | cons t ts ih =>
    rw [record_trades_cons, ih]
    simp

theorem record_trades_stocks (m : StockMarket) (ts : List Trade) :
    (m.record_trades ts).stocks = m.stocks ∪ stocksOf ts := by
  induction ts generalizing m with
  | nil => simp [StockMarket.record_trades, stocksOf]
  | cons t ts ih =>
    rw [record_trades_cons, ih]
    simp only [insert_if_mem, stocksOf_cons]
    rw [Finset.insert_union, Finset.union_insert]

/-- C4 counterexample: a market that already holds a GIN trade, then
given A = [tea_trade1] and B = [tea_trade2], ends with a three-element
ledger, not the two-element ledger A followed by B that the claim
predicts for every market. -/
theorem record_trades_cumulative_counterexample :
    ¬((((StockMarket.empty.record_trades [gin_trade3]).record_trades
          [tea_trade1]).record_trades [tea_trade2]).trades =
        [tea_trade1] ++ [tea_trade2]) := by
  intro h
  have hlen := congrArg List.length h
  simp [record_trades_trades, StockMarket.empty] at hlen

/-- C4 amended: record_trades(A) then record_trades(B) appends A followed
by B to the existing ledger (duplicates kept, order preserved) and adds
the union of the stocks of A and B to the tracked set; in particular,
starting from the empty market the ledger equals A followed by B and the
tracked set equals the union of the stocks appearing in A and in B. -/
theorem record_trades_cumulative (m : StockMarket) (A B : List Trade) :
    ((m.record_trades A).record_trades B).trades = m.trades ++ (A ++ B) ∧
    ((m.record_trades A).record_trades B).stocks =
      m.stocks ∪ (stocksOf A ∪ stocksOf B) ∧
    ((StockMarket.empty.record_trades A).record_trades B).trades =
      A ++ B ∧
    ((StockMarket.empty.record_trades A).record_trades B).stocks =
      stocksOf A ∪ stocksOf B := by
  refine ⟨?_, ?_, ?_, ?_⟩ <;>
    simp [record_trades_trades, record_trades_stocks, StockMarket.empty,
      Finset.union_assoc]

theorem reachable_stocks_eq (m : StockMarket) (h : Reachable m) :
    m.stocks = stocksOf m.trades := by
  induction h with
  | base => simp [StockMarket.empty, stocksOf]
  | step m ts hm ih =>
    rw [record_trades_stocks, record_trades_trades, stocksOf_append, ih]

/-- C9: in every market reachable from the empty market by record_trades
calls, the tracked-stock set is exactly the set of stocks appearing in
the ledger, and recording more trades only extends the ledger, only grows
the stock set, and stays within the reachable states. -/
theorem market_invariant (m : StockMarket) (h : Reachable m) :
    m.stocks = stocksOf m.trades ∧
    ∀ ts : List Trade,
      (m.record_trades ts).trades = m.trades ++ ts ∧
      m.stocks ⊆ (m.record_trades ts).stocks ∧
      Reachable (m.record_trades ts) := by
  refine ⟨reachable_stocks_eq m h, ?_⟩
  intro ts
  refine ⟨record_trades_trades m ts, ?_, Reachable.step m ts h⟩
  rw [record_trades_stocks]
  exact Finset.subset_union_left

/-- Witness for market_invariant at the concrete test market. -/
theorem market_invariant_witness :
    market1.stocks = stocksOf market1.trades ∧
    (market1.record_trades [ale_trade]).trades =
      market1.trades ++ [ale_trade] := by
  have h := market_invariant market1 (Reachable.step _ _ Reachable.base)
  exact ⟨h.1, (h.2 [ale_trade]).1⟩

theorem market1_trades : market1.trades = first_trades :=
  record_trades_trades StockMarket.empty first_trades

theorem market1_stocks : market1.stocks = {tea, gin} := by
  have h :
      market1.stocks = StockMarket.empty.stocks ∪ stocksOf first_trades :=
    record_trades_stocks StockMarket.empty first_trades
  rw [h]
  simp [StockMarket.empty, stocksOf, first_trades, tea_trade1, tea_trade2,
    tea_trade3, gin_trade1, gin_trade2, gin_trade3]

theorem tea_mem_market1 : tea ∈ market1.stocks := by
  rw [market1_stocks]
  simp

theorem pop_not_mem_market1 : pop ∉ market1.stocks := by
  rw [market1_stocks]
  simp [pop, tea, gin]

theorem market1_recent_tea :
    market1.recent_trades 1010 tea =
      [tea_trade1, tea_trade2, tea_trade3] := by
  rw [StockMarket.recent_trades, market1_trades]
  simp only [first_trades, List.filter]
  norm_num [tea_trade1, tea_trade2, tea_trade3, gin_trade1, gin_trade2,
    gin_trade3, tea, gin, HISTORICAL_TRADES_TIME]

theorem market1_recent_tea_5000 :
    market1.recent_trades 5000 tea = [] := by
  rw [StockMarket.recent_trades, market1_trades]
  simp only [first_trades, List.filter]
  norm_num [tea_trade1, tea_trade2, tea_trade3, gin_trade1, gin_trade2,
    gin_trade3, tea, gin, HISTORICAL_TRADES_TIME]

theorem marketW_trades : marketW.trades = [ale_trade] :=
  record_trades_trades StockMarket.empty [ale_trade]

theorem marketW_stocks : marketW.stocks = {ale} := by
  have h :
      marketW.stocks = StockMarket.empty.stocks ∪ stocksOf [ale_trade] :=
    record_trades_stocks StockMarket.empty [ale_trade]
  rw [h]
  simp [StockMarket.empty, stocksOf, ale_trade]

theorem ale_mem_marketW : ale ∈ marketW.stocks := by
  rw [marketW_stocks]
  simp

theorem marketW_vwsp_ale :
    marketW.volume_weighted_stock_price 1000 ale = some 500 := by
  have hrec : marketW.recent_trades 1000 ale = [ale_trade] := by
    rw [StockMarket.recent_trades, marketW_trades]
    simp only [List.filter]
    norm_num [ale_trade, ale, HISTORICAL_TRADES_TIME]
  rw [StockMarket.volume_weighted_stock_price,
    if_neg (not_not_intro ale_mem_marketW)]
  rw [hrec]
  norm_num [ale_trade]

/-- C1: volume_weighted_stock_price returns 0 for an untracked stock;
for a tracked stock it returns the quantity-weighted average price over
the recent trades, and a trade is recent exactly when it is recorded, its
age at the evaluation instant is at most 900 seconds (the boundary trade
with age exactly 900 included), and it is a trade of this stock. -/
theorem vwsp_spec (m : StockMarket) (now : ℚ) (s : Stock) :
    (s ∉ m.stocks → m.volume_weighted_stock_price now s = some 0) ∧
    (s ∈ m.stocks →
      ((m.recent_trades now s).map Trade.quantity_stocks).sum ≠ 0 →
      m.volume_weighted_stock_price now s =
        some
          (((m.recent_trades now s).map
              (fun t => t.price * t.quantity_stocks)).sum /
            ((m.recent_trades now s).map Trade.quantity_stocks).sum)) ∧
    (∀ t : Trade,
      t ∈ m.recent_trades now s ↔
        t ∈ m.trades ∧ now - t.trade_time ≤ HISTORICAL_TRADES_TIME ∧
          t.stock = s) := by
  refine ⟨?_, ?_, ?_⟩
  · intro h
    simp [StockMarket.volume_weighted_stock_price, h]
  · intro h hd
    simp [StockMarket.volume_weighted_stock_price, h, hd]
  · intro t
    simp [StockMarket.recent_trades, List.mem_filter]

/-- Witness for vwsp_spec at the test fixture, evaluated at second 1010:
tea_trade1 (time 110) sits exactly on the 900-second boundary and is
included, giving VWSP(TEA) = 27200/100 = 272; POP is untracked so
VWSP(POP) = 0. -/
theorem vwsp_spec_witness :
    market1.volume_weighted_stock_price 1010 tea = some 272 ∧
    market1.volume_weighted_stock_price 1010 pop = some 0 ∧
    tea_trade1 ∈ market1.recent_trades 1010 tea := by
  refine ⟨?_, ?_, ?_⟩
  · have hd :
        ((market1.recent_trades 1010 tea).map Trade.quantity_stocks).sum ≠
          0 := by
      rw [market1_recent_tea]
      norm_num [tea_trade1, tea_trade2, tea_trade3]
    have h := (vwsp_spec market1 1010 tea).2.1 tea_mem_market1 hd
    rw [h, market1_recent_tea]
    norm_num [tea_trade1, tea_trade2, tea_trade3]
  · exact (vwsp_spec market1 1010 pop).1 pop_not_mem_market1
  · refine ((vwsp_spec market1 1010 tea).2.2 tea_trade1).mpr ⟨?_, ?_, rfl⟩
    · rw [market1_trades]
      simp [first_trades]
    · norm_num [tea_trade1, HISTORICAL_TRADES_TIME]

/-- C6: a tracked stock with no trades inside the 900-second window makes
volume_weighted_stock_price divide by zero: the fault is modelled as
`none`, so no number — in particular no misleading non-zero number — is
returned. -/
theorem vwsp_empty_window_fault (m : StockMarket) (now : ℚ) (s : Stock)
    (hs : s ∈ m.stocks) (he : m.recent_trades now s = []) :
    m.volume_weighted_stock_price now s = none := by
  simp [StockMarket.volume_weighted_stock_price, hs, he]

/-- Witness for vwsp_empty_window_fault: at second 5000 every TEA trade
of the test market is older than 900 seconds, so VWSP(TEA) faults. -/
theorem vwsp_empty_window_fault_witness :
    market1.volume_weighted_stock_price 5000 tea = none :=
  vwsp_empty_window_fault market1 5000 tea tea_mem_market1
    market1_recent_tea_5000

theorem vwsp_run_eq (m : StockMarket) (now : ℚ) (s : Stock) :
    m.volume_weighted_stock_price_run now s =
      (m, m.volume_weighted_stock_price now s) := by
  by_cases h1 : s ∉ m.stocks
  · simp [StockMarket.volume_weighted_stock_price_run,
      StockMarket.volume_weighted_stock_price, h1]
  · by_cases h2 :
        ((m.recent_trades now s).map Trade.quantity_stocks).sum = 0 <;>
      simp [StockMarket.volume_weighted_stock_price_run,
        StockMarket.volume_weighted_stock_price, h1, h2]

theorem asi_run_eq (m : StockMarket) (now : ℚ) :
    m.all_share_index_run now = (m, m.all_share_index now) := by
  unfold StockMarket.all_share_index_run StockMarket.all_share_index
  split_ifs <;> rfl

/-- C10: the two query operations, translated with explicit state
passing, leave the market unchanged: the ledger and the tracked-stock set
after the call are those before it, and the returned value is the pure
query value. -/
theorem queries_preserve_state (m : StockMarket) (now : ℚ) (s : Stock) :
    (m.volume_weighted_stock_price_run now s).1.trades = m.trades ∧
    (m.volume_weighted_stock_price_run now s).1.stocks = m.stocks ∧
    (m.volume_weighted_stock_price_run now s).2 =
      m.volume_weighted_stock_price now s ∧
    (m.all_share_index_run now).1.trades = m.trades ∧
    (m.all_share_index_run now).1.stocks = m.stocks ∧
    (m.all_share_index_run now).2 = m.all_share_index now := by
  rw [vwsp_run_eq, asi_run_eq]
  exact ⟨rfl, rfl, rfl, rfl, rfl, rfl⟩

/-- C2: with at least one tracked stock (and every tracked stock's VWSP
defined), all_share_index is the geometric mean — the product raised to
one over the count — of the VWSPs of the tracked stocks; with zero
tracked stocks it is undefined (a fault, not a number). -/
theorem all_share_index_spec (m : StockMarket) (now : ℚ) :
    (m.stocks = ∅ → m.all_share_index now = none) ∧
    (m.stocks.Nonempty →
      (∀ s ∈ m.stocks, (m.volume_weighted_stock_price now s).isSome) →
      m.all_share_index now =
        some (specGeometricMean m.stocks
          (fun s =>
            (((m.volume_weighted_stock_price now s).getD 0 : ℚ) : ℝ)))) := by
  constructor
  · intro h
    simp [StockMarket.all_share_index, h]
  · intro hne hall
    rw [StockMarket.all_share_index,
      if_neg (Finset.nonempty_iff_ne_empty.mp hne), if_pos hall]
    rfl

/-- Witness for all_share_index_spec: the one-stock market holding a
single ALE trade at second 1000 has, at second 1000, a single VWSP of
500 and hence all-share index 500 (the exponent is 1/1 = 1). -/
theorem all_share_index_spec_witness :
    marketW.all_share_index 1000 = some ((500 : ℚ) : ℝ) := by
  have h := (all_share_index_spec marketW 1000).2
    (by rw [marketW_stocks]; exact Finset.singleton_nonempty ale)
    (by
      intro s hsmem
      rw [marketW_stocks, Finset.mem_singleton] at hsmem
      rw [hsmem, marketW_vwsp_ale]
      rfl)
  rw [h]
  simp only [specGeometricMean, marketW_stocks, Finset.prod_singleton,
    Finset.card_singleton, marketW_vwsp_ale]
  norm_num [Real.rpow_one]

end SimpleStocks
